import Mathlib

/-!
Verification of the Komodo Core helpers layer
(`src/bin/core/src/helpers/mod.rs` and
`src/client/core/rs/src/entities/server.rs`) against its
natural-language specification.

The Rust code is shallowly embedded: the database client is modelled as an
explicit `Except`-valued store argument (the whole store either answers
queries or is failing, matching a `find_one` call that either returns an
optional row or errors), the `on_https_found` callback sink is modelled by
recording the list of values it is invoked with, and the number of store
queries issued is recorded so that "without contacting the store" is a
statable property.
-/

/-- A row of the `git_accounts` collection
(`GitAccount { domain, username, token, https }`). -/
structure GitAccount where
  domain : String
  username : String
  token : String
  https : Bool
deriving DecidableEq, Repr

/-- A row of the `registry_accounts` collection
(`RegistryAccount { domain, username, token }`). -/
structure RegistryAccount where
  domain : String
  username : String
  token : String
deriving DecidableEq, Repr

/-- An account entry `{ username, token }` inside a static-config provider. -/
structure ProviderAccount where
  username : String
  token : String
deriving DecidableEq, Repr

/-- A static-config git provider `{ domain, https, accounts }`. -/
structure GitProvider where
  domain : String
  https : Bool
  accounts : List ProviderAccount
deriving DecidableEq, Repr

/-- A static-config docker registry `{ domain, accounts }`. -/
structure DockerRegistry where
  domain : String
  accounts : List ProviderAccount
deriving DecidableEq, Repr

/-- The process-wide static configuration snapshot (`core_config()`):
shared passkey, git providers, docker registries. -/
structure CoreConfig where
  passkey : String
  git_providers : List GitProvider
  docker_registries : List DockerRegistry
deriving DecidableEq, Repr

/-- Errors surfaced by the credential resolver: the store failed a query.
The Rust code wraps the db error with a context string via
`.context(...)`; both the context and the underlying cause are kept. -/
inductive ResolveError where
  | storeUnavailable (context : String) (cause : String)
deriving DecidableEq, Repr

/-- `git_accounts.find_one(doc! { "domain": d, "username": u })` on a
store that answered: first row matching both fields. -/
def find_one_git (rows : List GitAccount) (domain username : String) :
    Option GitAccount :=
  rows.find? fun a => a.domain == domain && a.username == username

/-- `registry_accounts.find_one(doc! { "domain": d, "username": u })`. -/
def find_one_registry (rows : List RegistryAccount)
    (domain username : String) : Option RegistryAccount :=
  rows.find? fun a => a.domain == domain && a.username == username

deriving instance DecidableEq for Except

/-- Result of a `git_token` call: the returned `anyhow::Result<Option<String>>`,
the values passed to the `on_https_found` sink in order, and the number of
store queries issued. -/
structure GitTokenResult where
  result : Except ResolveError (Option String)
  sink_calls : List Bool
  store_queries : Nat
deriving DecidableEq, Repr

/-- Embedding of `git_token` (helpers/mod.rs lines 60-91).
The db client is passed as `store`: `.error e` models the `find_one`
call failing with cause `e`, `.ok rows` models a store answering
queries over the row list `rows`. -/
def git_token (cfg : CoreConfig) (store : Except String (List GitAccount))
    (provider_domain account_username : String) : GitTokenResult :=
  if provider_domain.isEmpty || account_username.isEmpty then
    ⟨Except.ok none, [], 0⟩
  else
    match store with
    | Except.error e =>
        ⟨Except.error (ResolveError.storeUnavailable
            "failed to query db for git provider accounts" e), [], 1⟩
    | Except.ok rows =>
        match find_one_git rows provider_domain account_username with
        | some provider => ⟨Except.ok (some provider.token), [provider.https], 1⟩
        | none =>
            match cfg.git_providers.find?
                (fun provider => provider.domain == provider_domain) with
            | none => ⟨Except.ok none, [], 1⟩
            | some provider =>
                ⟨Except.ok ((provider.accounts.find?
                    (fun account => account.username == account_username)).map
                      (fun account => account.token)),
                  [provider.https], 1⟩

/-- Result of a `registry_token` call: returned value and number of store
queries issued (there is no sink). -/
structure RegistryTokenResult where
  result : Except ResolveError (Option String)
  store_queries : Nat
deriving DecidableEq, Repr

/-- Embedding of `registry_token` (helpers/mod.rs lines 159-184).
Note: unlike `git_token`, the source has NO empty-input short-circuit;
the store is queried unconditionally. -/
def registry_token (cfg : CoreConfig)
    (store : Except String (List RegistryAccount))
    (provider_domain account_username : String) : RegistryTokenResult :=
  match store with
  | Except.error e =>
      ⟨Except.error (ResolveError.storeUnavailable
          "failed to query db for docker registry accounts" e), 1⟩
  | Except.ok rows =>
      match find_one_registry rows provider_domain account_username with
      | some provider => ⟨Except.ok (some provider.token), 1⟩
      | none =>
          ⟨Except.ok ((cfg.docker_registries.find?
              (fun provider => provider.domain == provider_domain)).bind
                (fun provider => (provider.accounts.find?
                    (fun account => account.username == account_username)).map
                  (fun account => account.token))), 1⟩

/-- The fields of `ServerConfig` that `periphery_client` reads.
`timeout_seconds` is an `i64` in the source, modelled as `Int`;
`request_headers` is a header-name-to-value map, modelled as an
association list passed through verbatim. -/
structure ServerConfig where
  address : String
  enabled : Bool
  timeout_seconds : Int
  passkey : String
  request_headers : List (String × String)
deriving DecidableEq, Repr

/-- A `Server` resource; `periphery_client` only reads its `config`. -/
structure Server where
  config : ServerConfig
deriving DecidableEq, Repr

/-- The error of `periphery_client`: `anyhow!("server not enabled")`,
the `ServerDisabled` policy refusal of the spec. -/
inductive PeripheryError where
  | serverNotEnabled
deriving DecidableEq, Repr

/-- The parameters `PeripheryClient::new` is called with: base URL,
passkey, header map, timeout in whole seconds. -/
structure PeripheryClient where
  address : String
  passkey : String
  request_headers : List (String × String)
  timeout_secs : Nat
deriving DecidableEq, Repr

/-- Rust `i64 as u64`: a wrapping cast, i.e. the representative of
`t` modulo `2^64` in `[0, 2^64)`. -/
def i64_as_u64 (t : Int) : Nat := (t % (2 : Int) ^ 64).toNat

/-- Embedding of `periphery_client` (helpers/mod.rs lines 188-207). -/
def periphery_client (cfg : CoreConfig) (server : Server) :
    Except PeripheryError PeripheryClient :=
  if !server.config.enabled then
    Except.error PeripheryError.serverNotEnabled
  else
    Except.ok
      ⟨server.config.address,
        if server.config.passkey.isEmpty then cfg.passkey
        else server.config.passkey,
        server.config.request_headers,
        i64_as_u64 server.config.timeout_seconds⟩

/-- `UserTarget`: tagged variant `{ User(id) | UserGroup(id) }`
(shape from the spec data model; the type lives outside src/). -/
inductive UserTarget where
  | user (id : String)
  | userGroup (id : String)
deriving DecidableEq, Repr

/-- `ResourceTarget`: tagged variant over resource kinds, each carrying
an id (shape from the spec data model; the type lives outside src/). -/
inductive ResourceTarget where
  | server (id : String)
  | build (id : String)
  | repo (id : String)
  | stack (id : String)
deriving DecidableEq, Repr

/-- `PermissionLevel`: ordered enum `None < Read < Execute < Write`
(shape from the spec data model; the type lives outside src/). -/
inductive PermissionLevel where
  | none
  | read
  | execute
  | write
deriving DecidableEq, Repr

/-- A fine-grained grant tag; the tag vocabulary is opaque to the
provisioner, so tags are modelled as strings. An `IndexSet` of tags is
modelled as a list in insertion order. -/
abbrev SpecificPermission := String

/-- A `Permission` row as inserted by `create_permission`:
`id` is `Default::default()` (the empty string) before the store
assigns one. -/
structure Permission where
  id : String
  user_target : UserTarget
  resource_target : ResourceTarget
  level : PermissionLevel
  specific : List SpecificPermission
deriving DecidableEq, Repr

/-- A `User`: only `id` and `admin` are read by `create_permission`. -/
structure User where
  id : String
  admin : Bool
deriving DecidableEq, Repr

/-- Observable effect of a `create_permission` call: the permission rows
whose insertion was attempted, and the error-level log lines emitted.
The function returns unit in the source, so the effect is the whole
observable behaviour; that the result type carries no error channel
models the source's `-> ()` signature. -/
structure GrantEffect where
  inserts : List Permission
  logs : List String
deriving DecidableEq, Repr

/-- Embedding of `create_permission` (helpers/mod.rs lines 210-236).
`insert_result` is the store's response to the `insert_one` call:
`.ok id` on success, `.error e` on failure. -/
def create_permission (user : User) (target : ResourceTarget)
    (level : PermissionLevel) (specific : List SpecificPermission)
    (insert_result : Except String String) : GrantEffect :=
  if user.admin then ⟨[], []⟩
  else
    let perm : Permission := ⟨"", UserTarget.user user.id, target, level, specific⟩
    match insert_result with
    | Except.ok _ => ⟨[perm], []⟩
    | Except.error e =>
        ⟨[perm],
          ["failed to create permission for " ++ reprStr target ++ " | " ++ e]⟩

/-- `ServerState` (server.rs lines 378-402). -/
inductive ServerState where
  | ok
  | notOk
  | disabled
deriving DecidableEq, Repr

/-- The serde `Serialize` derive on `ServerState`: the enum carries no
`#[serde(rename_all = ...)]` attribute, so serde serialises each unit
variant as its Rust variant name. The `#[strum(serialize_all =
"kebab-case")]` attribute configures only the strum `Display` derive
and has no effect on serde. -/
def ServerState.serdeSerialize : ServerState → String
  | ServerState.ok => "Ok"
  | ServerState.notOk => "NotOk"
  | ServerState.disabled => "Disabled"

/-- The serde `Deserialize` derive on `ServerState`: accepts exactly the
Rust variant names. -/
def ServerState.serdeDeserialize (s : String) : Option ServerState :=
  if s = "Ok" then some ServerState.ok
  else if s = "NotOk" then some ServerState.notOk
  else if s = "Disabled" then some ServerState.disabled
  else none

/-- The strum `Display` derive on `ServerState` under
`#[strum(serialize_all = "kebab-case")]`: kebab-cased variant names. -/
def ServerState.strumDisplay : ServerState → String
  | ServerState.ok => "ok"
  | ServerState.notOk => "not-ok"
  | ServerState.disabled => "disabled"

/-- A BSON value, restricted to what `flatten_document` distinguishes:
sub-documents versus everything else (two scalar kinds suffice). -/
inductive Bson where
  | string (value : String)
  | int32 (value : Int)
  | document (fields : List (String × Bson))

/-- A BSON `Document`: ordered key/value pairs. -/
abbrev Document := List (String × Bson)

/-- `Document::insert` (bson crate, indexmap semantics): if the key is
present, replace its value in place; otherwise append the entry. -/
def Document.insert (d : Document) (key : String) (value : Bson) : Document :=
  if d.any (fun p => p.1 == key) then
    d.map (fun p => if p.1 == key then (key, value) else p)
  else d ++ [(key, value)]

/-- Embedding of `flatten_document` (helpers/mod.rs lines 242-256):
each top-level sub-document entry becomes dotted keys
`"outer.inner"`; other entries are inserted unchanged, in iteration
order, into a fresh document. -/
def flatten_document (doc : Document) : Document :=
  doc.foldl
    (fun target p =>
      match p.2 with
      | Bson.document inner =>
          inner.foldl
            (fun t q => Document.insert t (p.1 ++ "." ++ q.1) q.2) target
      | b => Document.insert target p.1 b)
    []


/-- A non-empty string is not `isEmpty`. -/
theorem isEmpty_eq_false_of_ne {s : String} (h : s ≠ "") :
    s.isEmpty = false := by
  cases hs : s.isEmpty with
  | false => rfl
  | true => exact absurd ((String.isEmpty_iff s).mp hs) h

/-- If `row` is in `rows`, matches `(domain, username)`, and the store-level
uniqueness invariant holds (at most one row per key pair), then the
`find_one` query returns exactly `row`. -/
theorem find_one_git_of_mem_unique (rows : List GitAccount)
    (domain username : String) (row : GitAccount) (hmem : row ∈ rows)
    (hdom : row.domain = domain) (husr : row.username = username)
    (huniq : ∀ a ∈ rows, a.domain = domain → a.username = username → a = row) :
    find_one_git rows domain username = some row := by
  induction rows with
  | nil => cases hmem
  | cons a as ih =>
    by_cases hp : (a.domain == domain && a.username == username) = true
    · have ha : a = row := by
        have h1 : a.domain = domain ∧ a.username = username := by
          simpa [Bool.and_eq_true, beq_iff_eq] using hp
        exact huniq a (List.mem_cons_self a as) h1.1 h1.2
      show List.find? _ (a :: as) = some row
      rw [List.find?_cons_of_pos
        (p := fun b => b.domain == domain && b.username == username) as hp, ha]
    · have hmem' : row ∈ as := by
        rcases List.mem_cons.mp hmem with h | h
        · exfalso
          apply hp
          simp [← h, hdom, husr]
        · exact h
      have huniq' : ∀ a ∈ as, a.domain = domain → a.username = username →
          a = row :=
        fun b hb => huniq b (List.mem_cons_of_mem a hb)
      show List.find? _ (a :: as) = some row
      rw [List.find?_cons_of_neg
        (p := fun b => b.domain == domain && b.username == username) as hp]
      exact ih hmem' huniq'

/-- C1 (counterexample): the claim quantifies over every domain and
username, but `git_token` short-circuits on empty inputs BEFORE the
store lookup. With the store holding a row keyed by the empty domain,
the row is present with token "T" and https true, yet the call returns
no secret and never invokes the sink (and never contacts the store). -/
theorem git_token_store_wins_cex :
    ((⟨"", "alice", "T", true⟩ : GitAccount) ∈
        [(⟨"", "alice", "T", true⟩ : GitAccount)]) ∧
    ¬ ((git_token ⟨"pk", [], []⟩
          (Except.ok [⟨"", "alice", "T", true⟩]) "" "alice").result
            = Except.ok (some "T") ∧
        (git_token ⟨"pk", [], []⟩
          (Except.ok [⟨"", "alice", "T", true⟩]) "" "alice").sink_calls
            = [true]) := by
  decide

/-- C1 (amended): for every NON-EMPTY domain `d` and username `u`, every
static config `cfg`, and every answering store whose rows contain a row
for `(d, u)` with token `T` and https `H` (unique for that key, the
store-level invariant), `git_token` returns `Some T`, invokes the sink
exactly once with `H`, and issues exactly one store query; the result
does not depend on `cfg`, even when `cfg` holds a conflicting entry. -/
theorem git_token_store_wins (cfg : CoreConfig) (rows : List GitAccount)
    (d u T : String) (H : Bool) (hd : d ≠ "") (hu : u ≠ "")
    (hmem : (⟨d, u, T, H⟩ : GitAccount) ∈ rows)
    (huniq : ∀ a ∈ rows, a.domain = d → a.username = u →
      a = (⟨d, u, T, H⟩ : GitAccount)) :
    git_token cfg (Except.ok rows) d u =
      ⟨Except.ok (some T), [H], 1⟩ := by
  have hfind : find_one_git rows d u = some ⟨d, u, T, H⟩ :=
    find_one_git_of_mem_unique rows d u ⟨d, u, T, H⟩ hmem rfl rfl huniq
  have hcond : (d.isEmpty || u.isEmpty) = false := by
    rw [isEmpty_eq_false_of_ne hd, isEmpty_eq_false_of_ne hu]
    rfl
  simp only [git_token, hcond, Bool.false_eq_true, if_false, hfind]

/-- C1 (witness): a concrete instance with a conflicting static-config
entry for the same `(domain, username)` pair. -/
theorem git_token_store_wins_witness :
    git_token
        ⟨"pk", [⟨"github.com", false, [⟨"alice", "tokCfg"⟩]⟩], []⟩
        (Except.ok [⟨"github.com", "alice", "tokDb", true⟩])
        "github.com" "alice"
      = ⟨Except.ok (some "tokDb"), [true], 1⟩ :=
  git_token_store_wins
    ⟨"pk", [⟨"github.com", false, [⟨"alice", "tokCfg"⟩]⟩], []⟩
    [⟨"github.com", "alice", "tokDb", true⟩]
    "github.com" "alice" "tokDb" true
    (by decide) (by decide) (by decide) (by decide)

/-- C2: for every non-empty domain `d` and username `u`, when the store
answers and has no row for `(d, u)`: if the static config's
`git_providers` list has a first entry with domain `d`, the sink is
invoked exactly once with that entry's `https` flag regardless of the
account lookup, and the result is the token of the first account with
username `u` when present, else no secret; if no provider matches, the
call returns no secret without invoking the sink. -/
theorem git_token_static_fallback (cfg : CoreConfig)
    (rows : List GitAccount) (d u : String) (hd : d ≠ "") (hu : u ≠ "")
    (hnorow : find_one_git rows d u = none) :
    (∀ p, cfg.git_providers.find? (fun q => q.domain == d) = some p →
      (git_token cfg (Except.ok rows) d u).sink_calls = [p.https] ∧
      (git_token cfg (Except.ok rows) d u).result =
        Except.ok ((p.accounts.find? (fun a => a.username == u)).map
          (fun a => a.token))) ∧
    (cfg.git_providers.find? (fun q => q.domain == d) = none →
      git_token cfg (Except.ok rows) d u =
        ⟨Except.ok none, [], 1⟩) := by
  have hcond : (d.isEmpty || u.isEmpty) = false := by
    rw [isEmpty_eq_false_of_ne hd, isEmpty_eq_false_of_ne hu]
    rfl
  constructor
  · intro p hp
    simp only [git_token, hcond, Bool.false_eq_true, if_false, hnorow, hp]
    exact ⟨trivial, trivial⟩
  · intro hp
    simp only [git_token, hcond, Bool.false_eq_true, if_false, hnorow, hp]

/-- C2 (witness): store answers with no rows; the config provider for
`github.com` carries https `true` and account `alice`; the first
conjunct of the theorem yields sink `[true]` and token `tokCfg`. -/
theorem git_token_static_fallback_witness :
    (git_token ⟨"pk", [⟨"github.com", true, [⟨"alice", "tokCfg"⟩]⟩], []⟩
        (Except.ok []) "github.com" "alice").sink_calls = [true] ∧
    (git_token ⟨"pk", [⟨"github.com", true, [⟨"alice", "tokCfg"⟩]⟩], []⟩
        (Except.ok []) "github.com" "alice").result =
      Except.ok (some "tokCfg") := by
  have h :=
    (git_token_static_fallback
        ⟨"pk", [⟨"github.com", true, [⟨"alice", "tokCfg"⟩]⟩], []⟩
        [] "github.com" "alice" (by decide) (by decide) rfl).1
      ⟨"github.com", true, [⟨"alice", "tokCfg"⟩]⟩ (by decide)
  exact ⟨h.1, h.2.trans (by decide)⟩

/-- C3: whenever the store is failing with cause `e` and the call
actually issues a store query (which it does exactly when neither
input is empty), `git_token` fails with `StoreUnavailable` wrapping
the source's context string around the underlying cause `e`, the sink
is never invoked, and the static config `cfg` (universally quantified
here) is never consulted. -/
theorem git_token_store_failure (cfg : CoreConfig) (d u e : String)
    (hq : (git_token cfg (Except.error e) d u).store_queries ≠ 0) :
    (git_token cfg (Except.error e) d u).result =
      Except.error (ResolveError.storeUnavailable
        "failed to query db for git provider accounts" e) ∧
    (git_token cfg (Except.error e) d u).sink_calls = [] := by
  by_cases hcond : (d.isEmpty || u.isEmpty) = true
  · exfalso
    apply hq
    simp only [git_token, hcond, if_true]
  · simp only [git_token, hcond, if_false]
    exact ⟨rfl, rfl⟩

/-- C3 (witness): failing store, non-empty inputs. -/
theorem git_token_store_failure_witness :
    (git_token ⟨"pk", [⟨"github.com", true, [⟨"alice", "tokCfg"⟩]⟩], []⟩
        (Except.error "io down") "github.com" "alice").result =
      Except.error (ResolveError.storeUnavailable
        "failed to query db for git provider accounts" "io down") ∧
    (git_token ⟨"pk", [⟨"github.com", true, [⟨"alice", "tokCfg"⟩]⟩], []⟩
        (Except.error "io down") "github.com" "alice").sink_calls = [] :=
  git_token_store_failure
    ⟨"pk", [⟨"github.com", true, [⟨"alice", "tokCfg"⟩]⟩], []⟩
    "github.com" "alice" "io down" (by decide)

/-- C4: the git half of the claim holds and is witnessed concretely, but
the registry half fails on the code: `registry_token` has no
empty-input short-circuit. At the failing input (empty domain,
username `alice`, a store row keyed by the empty domain), `git_token`
returns no secret with zero store queries and no sink call, while
`registry_token` issues one store query and even returns the row's
token instead of no secret. -/
theorem registry_token_queries_store_on_empty_domain :
    git_token ⟨"pk", [], []⟩
        (Except.ok ([] : List GitAccount)) "" "alice"
      = ⟨Except.ok none, [], 0⟩ ∧
    git_token ⟨"pk", [], []⟩
        (Except.ok ([] : List GitAccount)) "github.com" ""
      = ⟨Except.ok none, [], 0⟩ ∧
    registry_token ⟨"pk", [], []⟩
        (Except.ok [⟨"", "alice", "tok"⟩]) "" "alice"
      = ⟨Except.ok (some "tok"), 1⟩ := by
  decide

/-- C5: for every static config and every server with `enabled = false`,
`periphery_client` fails with the server-disabled refusal; no client
value is constructed. -/
theorem periphery_client_disabled (cfg : CoreConfig) (s : Server)
    (h : s.config.enabled = false) :
    periphery_client cfg s =
      Except.error PeripheryError.serverNotEnabled := by
  simp [periphery_client, h]

/-- C5 (witness): a concrete disabled server. -/
theorem periphery_client_disabled_witness :
    periphery_client ⟨"pk", [], []⟩
        ⟨⟨"https://h:8120", false, 3, "sk", [("X-H", "v")]⟩⟩
      = Except.error PeripheryError.serverNotEnabled :=
  periphery_client_disabled ⟨"pk", [], []⟩
    ⟨⟨"https://h:8120", false, 3, "sk", [("X-H", "v")]⟩⟩ rfl

/-- C6: for every enabled server whose `timeout_seconds` lies in the
`i64` range, `periphery_client` succeeds with a client bound to the
server's address, to the server's passkey when non-empty and otherwise
to the process passkey, to the `request_headers` map verbatim, and to
a timeout that is always non-negative and equals `timeout_seconds`
seconds whenever that value is non-negative (a negative value wraps
through the `i64 as u64` cast, hence stays non-negative). -/
theorem periphery_client_enabled_fields (cfg : CoreConfig) (s : Server)
    (hen : s.config.enabled = true)
    (_hlo : -(2 ^ 63) ≤ s.config.timeout_seconds)
    (hhi : s.config.timeout_seconds < 2 ^ 63) :
    ∃ c, periphery_client cfg s = Except.ok c ∧
      c.address = s.config.address ∧
      c.passkey =
        (if s.config.passkey = "" then cfg.passkey
          else s.config.passkey) ∧
      c.request_headers = s.config.request_headers ∧
      0 ≤ (c.timeout_secs : Int) ∧
      (0 ≤ s.config.timeout_seconds →
        (c.timeout_secs : Int) = s.config.timeout_seconds) := by
  have hcl : periphery_client cfg s = Except.ok
      ⟨s.config.address,
        if s.config.passkey.isEmpty then cfg.passkey
        else s.config.passkey,
        s.config.request_headers,
        i64_as_u64 s.config.timeout_seconds⟩ := by
    simp [periphery_client, hen]
  refine ⟨_, hcl, rfl, ?_, rfl, ?_, ?_⟩
  · by_cases hp : s.config.passkey = ""
    · rw [hp]
      rw [if_pos (show ("" : String).isEmpty = true from rfl), if_pos rfl]
    · have h1 : ¬ (s.config.passkey.isEmpty = true) := by
        rw [isEmpty_eq_false_of_ne hp]
        exact Bool.false_ne_true
      rw [if_neg h1, if_neg hp]
  · exact Int.natCast_nonneg _
  · intro ht
    show ((i64_as_u64 s.config.timeout_seconds : Nat) : Int) = _
    unfold i64_as_u64
    rw [Int.toNat_of_nonneg (Int.emod_nonneg _ (by norm_num)),
      Int.emod_eq_of_lt ht (lt_trans hhi (by norm_num))]

/-- C6 (witness): enabled server with empty passkey inherits the process
passkey `P`; timeout 5 passes through. -/
theorem periphery_client_enabled_fields_witness :
    ∃ c, periphery_client ⟨"P", [], []⟩
        ⟨⟨"https://h:8120", true, 5, "", [("X-H", "v")]⟩⟩
      = Except.ok c ∧
      c.address = "https://h:8120" ∧
      c.passkey = (if "" = "" then "P" else "") ∧
      c.request_headers = [("X-H", "v")] ∧
      0 ≤ (c.timeout_secs : Int) ∧
      (0 ≤ (5 : Int) → (c.timeout_secs : Int) = 5) :=
  periphery_client_enabled_fields ⟨"P", [], []⟩
    ⟨⟨"https://h:8120", true, 5, "", [("X-H", "v")]⟩⟩
    rfl (by norm_num) (by norm_num)

/-- C7: for every user, target, level, specific set, and store response,
the permission rows whose insertion `create_permission` attempts are:
none at all when `user.admin` is true (the store is untouched), and
exactly one row with `user_target = User(user.id)`, the given target,
and `level` and `specific` copied verbatim when `user.admin` is false. -/
theorem create_permission_admin_noop_and_insert (u : User)
    (target : ResourceTarget) (level : PermissionLevel)
    (specific : List SpecificPermission)
    (insert_result : Except String String) :
    (create_permission u target level specific insert_result).inserts =
      if u.admin then []
      else [⟨"", UserTarget.user u.id, target, level, specific⟩] := by
  by_cases h : u.admin = true
  · simp [create_permission, h]
  · have h2 : u.admin = false := by
      cases hb : u.admin
      · rfl
      · exact absurd hb h
    cases insert_result <;> simp [create_permission, h2]

/-- C8: `create_permission` is a total function into `GrantEffect` (the
source returns unit: there is no error channel to the caller). When
the insert fails with cause `e`, the call still returns: for a
non-admin the attempted row is recorded and the error is swallowed
into a single error-level log line carrying `e`; for an admin nothing
happens at all. -/
theorem create_permission_swallows_insert_error (u : User)
    (target : ResourceTarget) (level : PermissionLevel)
    (specific : List SpecificPermission) (e : String) :
    create_permission u target level specific (Except.error e) =
      if u.admin then ⟨[], []⟩
      else ⟨[⟨"", UserTarget.user u.id, target, level, specific⟩],
        ["failed to create permission for " ++ reprStr target
          ++ " | " ++ e]⟩ := by
  by_cases h : u.admin = true
  · simp [create_permission, h]
  · have h2 : u.admin = false := by
      cases hb : u.admin
      · rfl
      · exact absurd hb h
    simp [create_permission, h2]

/-- C9 (counterexample): the serde wire form of `ServerState` is NOT
kebab-case. `Ok` serialises as "Ok", not "ok", and none of the
kebab-case strings deserialises at all: the
`#[strum(serialize_all = "kebab-case")]` attribute on the enum
configures only the strum `Display` derive, not serde. -/
theorem server_state_not_kebab_on_wire :
    ServerState.serdeSerialize ServerState.ok ≠ "ok" ∧
    ServerState.serdeDeserialize "ok" = none ∧
    ServerState.serdeDeserialize "not-ok" = none ∧
    ServerState.serdeDeserialize "disabled" = none := by
  decide

/-- C9 (amended): the strum `Display` form of `ServerState` is
kebab-case (`ok`, `not-ok`, `disabled`), while the serde wire form is
the Rust variant name (`Ok`, `NotOk`, `Disabled`); each serde wire
string deserialises back to the corresponding variant. -/
theorem server_state_display_kebab_serde_pascal :
    ServerState.strumDisplay ServerState.ok = "ok" ∧
    ServerState.strumDisplay ServerState.notOk = "not-ok" ∧
    ServerState.strumDisplay ServerState.disabled = "disabled" ∧
    ServerState.serdeSerialize ServerState.ok = "Ok" ∧
    ServerState.serdeSerialize ServerState.notOk = "NotOk" ∧
    ServerState.serdeSerialize ServerState.disabled = "Disabled" ∧
    ServerState.serdeDeserialize "Ok" = some ServerState.ok ∧
    ServerState.serdeDeserialize "NotOk" = some ServerState.notOk ∧
    ServerState.serdeDeserialize "Disabled" = some ServerState.disabled := by
  decide

/-- C10: a concrete collision. The input document has the non-map entry
`"a.b" ↦ "v1"` followed by the map entry `"a" ↦ { "b" ↦ "v2" }`. Both
flatten to the key `"a.b"`, and `Document::insert` overwrites, so the
output is the single entry `"a.b" ↦ "v2"`: the earlier value `"v1"`
is lost and the output has 1 entry, fewer than the 2 combined
top-level non-map plus nested entries of the input. -/
theorem flatten_document_collision_drops_entry :
    flatten_document
        [("a.b", Bson.string "v1"),
          ("a", Bson.document [("b", Bson.string "v2")])]
      = [("a.b", Bson.string "v2")] ∧
    (flatten_document
        [("a.b", Bson.string "v1"),
          ("a", Bson.document [("b", Bson.string "v2")])]).length
      < 2 := by
  exact ⟨rfl, Nat.one_lt_two⟩
